import Mathlib

/-!
Verification of the ZRM middleware against its specification.

The development shallowly embeds the parts of ZRM that the checked
properties mention: the entity / liveliness-key codec, the discovery
graph (GraphData and the Graph query surface), the service RPC layer's
error mapping, and the action goal state machine.  Python strings are
modelled as Lean `String`, Python `str.split("/")` / `"/".join` as
character-list recursions, Python `str(int)` / `int(str)` as decimal
digit functions, raised exceptions as `Except` errors, and `None` as
`Option.none`.
-/

namespace ZRM

/-! ### Splitting and joining on the slash separator

Modelled from the spec: "Parsing splits on `/`" (§4.1) and the key
formats of §3, which join segments with `/`.  `splitChars` mirrors
Python's `str.split("/")` (an empty string yields one empty segment),
`joinChars` mirrors `"/".join`.
-/

def splitChars : List Char → List (List Char)
  | [] => [[]]
  | c :: cs =>
    if c = '/' then [] :: splitChars cs
    else
      match splitChars cs with
      | [] => [[c]]
      | s :: ss => (c :: s) :: ss

def joinChars : List (List Char) → List Char
  | [] => []
  | [s] => s
  | s :: ss => s ++ '/' :: joinChars ss

def splitSlash (s : String) : List String :=
  (splitChars s.data).map String.mk

def joinSlash (ss : List String) : String :=
  String.mk (joinChars (ss.map String.data))

theorem splitChars_ne_nil (l : List Char) : splitChars l ≠ [] := by
  induction l with
  | nil => simp [splitChars]
  | cons c cs ih =>
    simp only [splitChars]
    by_cases hc : c = '/'
    · simp [hc]
    · simp only [if_neg hc]
      cases h : splitChars cs with
      | nil => simp
      | cons s ss => simp

theorem splitChars_cons_slash (cs : List Char) :
    splitChars ('/' :: cs) = [] :: splitChars cs := by
  simp [splitChars]

theorem splitChars_append_of_no_slash (s r : List Char) (hs : '/' ∉ s)
    (t : List Char) (ts : List (List Char)) (hr : splitChars r = t :: ts) :
    splitChars (s ++ r) = (s ++ t) :: ts := by
  induction s with
  | nil => simpa using hr
  | cons c cs ih =>
    have hc : c ≠ '/' := fun h => hs (by simp [h])
    have hcs : '/' ∉ cs := fun h => hs (by simp [h])
    have ih2 := ih hcs
    simp only [List.cons_append, splitChars, if_neg hc, List.append_eq, ih2]

theorem splitChars_joinChars (ss : List (List Char)) (hne : ss ≠ [])
    (h : ∀ s ∈ ss, '/' ∉ s) : splitChars (joinChars ss) = ss := by
  induction ss with
  | nil => exact absurd rfl hne
  | cons s rest ih =>
    cases rest with
    | nil =>
      have hs : '/' ∉ s := h s (by simp)
      have : splitChars (s ++ ([] : List Char)) = (s ++ []) :: [] :=
        splitChars_append_of_no_slash s [] hs [] [] (by simp [splitChars])
      simpa [joinChars] using this
    | cons t ts =>
      have hs : '/' ∉ s := h s (by simp)
      have hrest : ∀ x ∈ t :: ts, '/' ∉ x := fun x hx => h x (by simp [hx])
      have ihr : splitChars (joinChars (t :: ts)) = t :: ts :=
        ih (by simp) hrest
      have hstep : splitChars ('/' :: joinChars (t :: ts)) =
          [] :: (t :: ts) := by
        rw [splitChars_cons_slash, ihr]
      have : splitChars (s ++ '/' :: joinChars (t :: ts)) =
          (s ++ []) :: (t :: ts) :=
        splitChars_append_of_no_slash s _ hs [] (t :: ts) hstep
      simpa [joinChars] using this

theorem splitSlash_joinSlash (ss : List String) (hne : ss ≠ [])
    (h : ∀ s ∈ ss, '/' ∉ s.data) : splitSlash (joinSlash ss) = ss := by
  have hmapne : ss.map String.data ≠ [] := by
    cases ss with
    | nil => exact absurd rfl hne
    | cons a as => simp
  have hmem : ∀ l ∈ ss.map String.data, '/' ∉ l := by
    intro l hl
    rcases List.mem_map.mp hl with ⟨s, hsmem, rfl⟩
    exact h s hsmem
  unfold splitSlash joinSlash
  rw [show (String.mk (joinChars (ss.map String.data))).data
        = joinChars (ss.map String.data) from rfl]
  rw [splitChars_joinChars _ hmapne hmem]
  rw [List.map_map]
  have : (String.mk ∘ String.data) = id := by
    funext s
    rfl
  rw [this, List.map_id]

/-! ### Decimal rendering and parsing of naturals

Modelled from the spec: the liveliness key carries `<domain>` as its
decimal rendering (Python `str(domain_id)`) and parsing reads it back
(Python `int(segment)`).
-/

def digitChar (n : Nat) : Char :=
  match n with
  | 0 => '0' | 1 => '1' | 2 => '2' | 3 => '3' | 4 => '4'
  | 5 => '5' | 6 => '6' | 7 => '7' | 8 => '8' | 9 => '9'
  | _ => '*'

def natDigitsAux : Nat → Nat → List Char
  | 0, _ => []
  | fuel + 1, n =>
    if n < 10 then [digitChar n]
    else natDigitsAux fuel (n / 10) ++ [digitChar (n % 10)]

def natRepr (n : Nat) : String :=
  String.mk (natDigitsAux (n + 1) n)

def charDigit? (c : Char) : Option Nat :=
  if 48 ≤ c.toNat ∧ c.toNat ≤ 57 then some (c.toNat - 48) else none

def strToNatAux : List Char → Nat → Option Nat
  | [], acc => some acc
  | c :: cs, acc =>
    match charDigit? c with
    | none => none
    | some d => strToNatAux cs (10 * acc + d)

def strToNat (s : String) : Option Nat :=
  if s.data.isEmpty then none else strToNatAux s.data 0

theorem charDigit?_digitChar : ∀ n < 10, charDigit? (digitChar n) = some n := by
  decide

theorem digitChar_ne : ∀ n < 10, digitChar n ≠ '/' ∧ digitChar n ≠ '%' := by
  decide

theorem natDigitsAux_ne (fuel n : Nat) (h : n < fuel) :
    ∀ c ∈ natDigitsAux fuel n, c ≠ '/' ∧ c ≠ '%' := by
  induction fuel generalizing n with
  | zero => exact absurd h (by omega)
  | succ f ih =>
    intro c hc
    simp only [natDigitsAux] at hc
    by_cases h10 : n < 10
    · rw [if_pos h10] at hc
      simp only [List.mem_singleton] at hc
      subst hc
      exact digitChar_ne n h10
    · rw [if_neg h10] at hc
      rcases List.mem_append.mp hc with h1 | h2
      · have hdiv : n / 10 < f := by omega
        exact ih (n / 10) hdiv c h1
      · simp only [List.mem_singleton] at h2
        subst h2
        exact digitChar_ne (n % 10) (Nat.mod_lt n (by omega))

theorem natDigitsAux_ne_nil (fuel n : Nat) (h : n < fuel) :
    natDigitsAux fuel n ≠ [] := by
  cases fuel with
  | zero => exact absurd h (by omega)
  | succ f =>
    simp only [natDigitsAux]
    by_cases h10 : n < 10
    · simp [h10]
    · simp [h10]

theorem strToNatAux_append (l₁ l₂ : List Char) (acc : Nat) :
    strToNatAux (l₁ ++ l₂) acc =
      (strToNatAux l₁ acc).bind (fun a => strToNatAux l₂ a) := by
  induction l₁ generalizing acc with
  | nil => simp [strToNatAux]
  | cons c cs ih =>
    simp only [List.cons_append, strToNatAux]
    cases charDigit? c with
    | none => simp
    | some d => simp [ih]

theorem strToNatAux_natDigitsAux (fuel n acc : Nat) (h : n < fuel) :
    strToNatAux (natDigitsAux fuel n) acc =
      some (acc * 10 ^ (natDigitsAux fuel n).length + n) := by
  induction fuel generalizing n acc with
  | zero => exact absurd h (by omega)
  | succ f ih =>
    by_cases h10 : n < 10
    · simp only [natDigitsAux, if_pos h10, strToNatAux,
        charDigit?_digitChar n h10]
      simp [List.length_singleton, pow_one, Nat.mul_comm]
    · have hdiv : n / 10 < f := by omega
      simp only [natDigitsAux, if_neg h10]
      rw [strToNatAux_append, ih (n / 10) acc hdiv, Option.some_bind]
      simp only [strToNatAux,
        charDigit?_digitChar (n % 10) (Nat.mod_lt n (by omega))]
      rw [List.length_append, List.length_singleton]
      congr 1
      calc 10 * (acc * 10 ^ (natDigitsAux f (n / 10)).length + n / 10) + n % 10
          = acc * (10 ^ (natDigitsAux f (n / 10)).length * 10)
            + (10 * (n / 10) + n % 10) := by ring
        _ = acc * 10 ^ ((natDigitsAux f (n / 10)).length + 1) + n := by
            rw [← pow_succ, Nat.div_add_mod]

theorem strToNat_natRepr (n : Nat) : strToNat (natRepr n) = some n := by
  unfold strToNat natRepr
  have hne := natDigitsAux_ne_nil (n + 1) n (by omega)
  rw [show (String.mk (natDigitsAux (n + 1) n)).data
      = natDigitsAux (n + 1) n from rfl]
  rw [if_neg (by simpa [List.isEmpty_iff] using hne)]
  rw [strToNatAux_natDigitsAux (n + 1) n 0 (by omega)]
  simp

theorem natRepr_no_slash (n : Nat) : '/' ∉ (natRepr n).data := by
  intro hmem
  have := natDigitsAux_ne (n + 1) n (by omega) '/' hmem
  exact this.1 rfl

/-! ### Slash escaping

Modelled from the spec: "Escaping is a single-byte substitution
`'/' ↔ '%'`; no other characters are transformed." (§3).
-/

def mangleChar (c : Char) : Char := if c = '/' then '%' else c

def demangleChar (c : Char) : Char := if c = '%' then '/' else c

def mangle (s : String) : String := String.mk (s.data.map mangleChar)

def demangle (s : String) : String := String.mk (s.data.map demangleChar)

theorem mangle_no_slash (s : String) : '/' ∉ (mangle s).data := by
  intro hmem
  rcases List.mem_map.mp hmem with ⟨c, _, hc⟩
  unfold mangleChar at hc
  by_cases h : c = '/'
  · rw [if_pos h] at hc
    exact absurd hc (by decide)
  · rw [if_neg h] at hc
    exact h hc

theorem demangle_mangle (s : String) (h : '%' ∉ s.data) :
    demangle (mangle s) = s := by
  unfold demangle mangle
  rw [show (String.mk (s.data.map mangleChar)).data
      = s.data.map mangleChar from rfl]
  rw [List.map_map]
  have : s.data.map (demangleChar ∘ mangleChar) = s.data.map id := by
    apply List.map_congr_left
    intro c hc
    have hcp : c ≠ '%' := fun hh => h (hh ▸ hc)
    unfold demangleChar mangleChar
    simp only [Function.comp_apply]
    by_cases hs : c = '/'
    · simp [hs]
    · rw [if_neg hs, if_neg hcp]
      rfl
  rw [this, List.map_id]

/-! ### Entities and the liveliness key codec

Modelled from the spec: §3 (data model, key formats) and §4.1 (parsing
order: split on `/`, validate the admin space, read `domain`, `z_id`,
`kind_code`, then the kind-specific trailer).  Error messages follow the
repository's tests (`Invalid admin space`, `Invalid liveliness key`).
-/

instance instDecEqExcept {ε α : Type} [DecidableEq ε] [DecidableEq α] :
    DecidableEq (Except ε α) := fun a b =>
  match a, b with
  | .error e, .error f =>
    if h : e = f then isTrue (by rw [h])
    else isFalse (by intro hh; injection hh; exact h (by assumption))
  | .error _, .ok _ => isFalse (by intro h; exact Except.noConfusion h)
  | .ok _, .error _ => isFalse (by intro h; exact Except.noConfusion h)
  | .ok x, .ok y =>
    if h : x = y then isTrue (by rw [h])
    else isFalse (by intro hh; injection hh; exact h (by assumption))

def adminSpace : String := "@zrm_lv"

inductive EntityKind where
  | NODE
  | PUBLISHER
  | SUBSCRIBER
  | SERVICE
  | CLIENT
deriving DecidableEq

def EntityKind.code : EntityKind → String
  | .NODE => "NN"
  | .PUBLISHER => "MP"
  | .SUBSCRIBER => "MS"
  | .SERVICE => "SS"
  | .CLIENT => "SC"

def entityKindOfCode (s : String) : Option EntityKind :=
  if s = "NN" then some .NODE
  else if s = "MP" then some .PUBLISHER
  else if s = "MS" then some .SUBSCRIBER
  else if s = "SS" then some .SERVICE
  else if s = "SC" then some .CLIENT
  else none

structure NodeEntity where
  domain_id : Nat
  z_id : String
  name : String
deriving DecidableEq

structure EndpointEntity where
  node : NodeEntity
  kind : EntityKind
  topic : String
  type_name : Option String
deriving DecidableEq

inductive Entity where
  | node (n : NodeEntity)
  | endpoint (e : EndpointEntity)
deriving DecidableEq

def Entity.kind : Entity → EntityKind
  | .node _ => .NODE
  | .endpoint e => e.kind

def NodeEntity.to_liveliness_ke (n : NodeEntity) : String :=
  joinSlash [adminSpace, natRepr n.domain_id, n.z_id,
    EntityKind.NODE.code, mangle n.name]

def typeSegment : Option String → String
  | some t => mangle t
  | none => "EMPTY"

def EndpointEntity.to_liveliness_ke (e : EndpointEntity) : String :=
  joinSlash [adminSpace, natRepr e.node.domain_id, e.node.z_id,
    e.kind.code, mangle e.node.name, mangle e.topic,
    typeSegment e.type_name]

def Entity.to_liveliness_ke : Entity → String
  | .node n => n.to_liveliness_ke
  | .endpoint e => e.to_liveliness_ke

def Entity.from_liveliness_ke (ke : String) : Except String (Option Entity) :=
  match splitSlash ke with
  | [] => Except.error ("Invalid liveliness key: " ++ ke)
  | admin :: rest =>
    if admin ≠ adminSpace then Except.error "Invalid admin space"
    else
      match rest with
      | d :: z :: code :: nm :: rest2 =>
        match strToNat d with
        | none => Except.error ("Invalid liveliness key: " ++ ke)
        | some domain =>
          match entityKindOfCode code with
          | none => Except.ok none
          | some .NODE => Except.ok (some (.node ⟨domain, z, demangle nm⟩))
          | some k =>
            match rest2 with
            | topic :: ty :: _ =>
              Except.ok (some (.endpoint ⟨⟨domain, z, demangle nm⟩, k,
                demangle topic,
                if ty = "EMPTY" then none else some (demangle ty)⟩))
            | _ => Except.ok none
      | _ => Except.error ("Invalid liveliness key: " ++ ke)

/-! ### Codec lemmas -/

theorem entityKindOfCode_code (k : EntityKind) :
    entityKindOfCode k.code = some k := by
  cases k <;> decide

theorem code_no_slash (k : EntityKind) : '/' ∉ k.code.data := by
  cases k <;> decide

theorem adminSpace_no_slash : '/' ∉ adminSpace.data := by decide

theorem map_mangleChar_self (l : List Char) (h : '%' ∉ l.map mangleChar) :
    l.map mangleChar = l := by
  induction l with
  | nil => rfl
  | cons c cs ih =>
    simp only [List.map_cons, List.mem_cons, not_or] at h
    obtain ⟨h1, h2⟩ := h
    have hc : mangleChar c = c := by
      by_cases hcc : c = '/'
      · exact absurd (by simp [mangleChar, hcc]) h1
      · simp [mangleChar, hcc]
    rw [List.map_cons, hc, ih h2]

theorem mangle_eq_EMPTY (t : String) (h : mangle t = "EMPTY") : t = "EMPTY" := by
  have hd : t.data.map mangleChar = "EMPTY".data := congrArg String.data h
  have hm : '%' ∉ t.data.map mangleChar := by
    rw [hd]
    decide
  have := map_mangleChar_self t.data hm
  rw [this] at hd
  exact congrArg String.mk hd

theorem node_key_roundtrip (n : NodeEntity)
    (hz : '/' ∉ n.z_id.data) (hp : '%' ∉ n.name.data) :
    Entity.from_liveliness_ke n.to_liveliness_ke =
      Except.ok (some (.node n)) := by
  have hsplit : splitSlash (joinSlash [adminSpace, natRepr n.domain_id,
      n.z_id, EntityKind.NODE.code, mangle n.name]) =
      [adminSpace, natRepr n.domain_id, n.z_id, EntityKind.NODE.code,
        mangle n.name] := by
    apply splitSlash_joinSlash
    · simp
    · intro s hs
      simp only [List.mem_cons, List.not_mem_nil, or_false] at hs
      rcases hs with rfl | rfl | rfl | rfl | rfl
      · exact adminSpace_no_slash
      · exact natRepr_no_slash _
      · exact hz
      · exact code_no_slash _
      · exact mangle_no_slash _
  unfold NodeEntity.to_liveliness_ke Entity.from_liveliness_ke
  rw [hsplit]
  simp only [ne_eq, not_true_eq_false, if_false, strToNat_natRepr,
    entityKindOfCode_code, demangle_mangle n.name hp]

theorem endpoint_key_roundtrip (e : EndpointEntity)
    (hk : e.kind ≠ .NODE)
    (hz : '/' ∉ e.node.z_id.data)
    (hn : '%' ∉ e.node.name.data)
    (ht : '%' ∉ e.topic.data)
    (hty : ∀ t, e.type_name = some t → '%' ∉ t.data ∧ t ≠ "EMPTY") :
    Entity.from_liveliness_ke e.to_liveliness_ke =
      Except.ok (some (.endpoint e)) := by
  obtain ⟨⟨d, z, nm⟩, k, tp, ty⟩ := e
  have hty_nos : '/' ∉ (typeSegment ty).data := by
    cases ty with
    | none => decide
    | some t => exact mangle_no_slash t
  have hsplit : splitSlash (joinSlash [adminSpace, natRepr d, z, k.code,
      mangle nm, mangle tp, typeSegment ty]) = [adminSpace, natRepr d, z,
      k.code, mangle nm, mangle tp, typeSegment ty] := by
    apply splitSlash_joinSlash
    · simp
    · intro s hs
      simp only [List.mem_cons, List.not_mem_nil, or_false] at hs
      rcases hs with rfl | rfl | rfl | rfl | rfl | rfl | rfl
      · exact adminSpace_no_slash
      · exact natRepr_no_slash _
      · exact hz
      · exact code_no_slash _
      · exact mangle_no_slash _
      · exact mangle_no_slash _
      · exact hty_nos
  unfold EndpointEntity.to_liveliness_ke Entity.from_liveliness_ke
  rw [hsplit]
  simp only [ne_eq, not_true_eq_false, if_false, strToNat_natRepr,
    entityKindOfCode_code]
  cases k
  case NODE => exact absurd rfl hk
  all_goals
    cases ty with
    | none =>
      simp [typeSegment, demangle_mangle nm hn, demangle_mangle tp ht]
    | some t =>
      obtain ⟨h1, h2⟩ := hty t rfl
      have hne : mangle t ≠ "EMPTY" := fun h => h2 (mangle_eq_EMPTY t h)
      simp [typeSegment, demangle_mangle nm hn, demangle_mangle tp ht,
        demangle_mangle t h1, hne]

theorem joinSlash_single (s : String) : joinSlash [s] = s := rfl

theorem joinSlash_cons (s t : String) (ts : List String) :
    joinSlash (s :: t :: ts) = s ++ "/" ++ joinSlash (t :: ts) := by
  have hd : "/".data = ['/'] := rfl
  apply String.ext
  simp [joinSlash, joinChars, String.data_append, hd]

/-- C1 (corrected): the claim held for every legally constructed entity,
but the `'/' ↔ '%'` escaping is lossy on names that already contain `'%'`
(see `C1_counterexample`).  Amended: for every NodeEntity whose `z_id`
contains no `'/'` and whose name contains no `'%'`, and every
EndpointEntity additionally of endpoint kind whose topic and type name
contain no `'%'` and whose type name is not the literal `"EMPTY"`,
`Entity.from_liveliness_ke` applied to `Entity.to_liveliness_ke` recovers
an entity equal to the original (same domain, z_id and name; for
endpoints also the same kind, topic and type name). -/
theorem C1_entity_roundtrip :
    (∀ n : NodeEntity, '/' ∉ n.z_id.data → '%' ∉ n.name.data →
      Entity.from_liveliness_ke (Entity.to_liveliness_ke (.node n)) =
        Except.ok (some (.node n)))
    ∧ (∀ e : EndpointEntity, e.kind ≠ .NODE → '/' ∉ e.node.z_id.data →
        '%' ∉ e.node.name.data → '%' ∉ e.topic.data →
        (∀ t, e.type_name = some t → '%' ∉ t.data ∧ t ≠ "EMPTY") →
        Entity.from_liveliness_ke (Entity.to_liveliness_ke (.endpoint e)) =
          Except.ok (some (.endpoint e))) := by
  constructor
  · intro n hz hp
    exact node_key_roundtrip n hz hp
  · intro e hk hz hn ht hty
    exact endpoint_key_roundtrip e hk hz hn ht hty

/-- C1 counterexample: the node entity with the legal name `"a%b"` does
not survive the key roundtrip (it comes back as `"a/b"`). -/
theorem C1_roundtrip_counterexample :
    Entity.from_liveliness_ke (Entity.to_liveliness_ke
        (.node ⟨0, "abc", "a%b"⟩)) ≠
      Except.ok (some (.node ⟨0, "abc", "a%b"⟩)) := by decide

/-- C1 witness: the roundtrip at the concrete node and endpoint used by
the repository's roundtrip tests. -/
theorem C1_roundtrip_witness :
    Entity.from_liveliness_ke (Entity.to_liveliness_ke
        (.node ⟨5, "xyz789", "test/node"⟩)) =
      Except.ok (some (.node ⟨5, "xyz789", "test/node"⟩))
    ∧ Entity.from_liveliness_ke (Entity.to_liveliness_ke
        (.endpoint ⟨⟨5, "xyz789", "test/node"⟩, .SUBSCRIBER,
          "robot/sensors/lidar", some "sensor/msgs/LaserScan"⟩)) =
      Except.ok (some (.endpoint ⟨⟨5, "xyz789", "test/node"⟩, .SUBSCRIBER,
        "robot/sensors/lidar", some "sensor/msgs/LaserScan"⟩)) := by
  constructor
  · exact C1_entity_roundtrip.1 ⟨5, "xyz789", "test/node"⟩
      (by decide) (by decide)
  · refine C1_entity_roundtrip.2 _ (by decide) (by decide) (by decide)
      (by decide) ?_
    intro t h
    rw [Option.some_inj] at h
    subst h
    exact ⟨by decide, by decide⟩

/-- C5: a node key is exactly
`@zrm_lv/<domain>/<z_id>/NN/<escaped name>` and an endpoint key exactly
`@zrm_lv/<domain>/<z_id>/<kind code>/<node name>/<topic>/<type or EMPTY>`,
where escaping replaces each `'/'` by `'%'` and transforms no other
character; in particular `NodeEntity 5 "xyz789" "test/node"` yields
`"@zrm_lv/5/xyz789/NN/test%node"`. -/
theorem C5_liveliness_key_format :
    (∀ n : NodeEntity, n.to_liveliness_ke =
        adminSpace ++ "/" ++ natRepr n.domain_id ++ "/" ++ n.z_id ++
          "/" ++ "NN" ++ "/" ++ mangle n.name)
    ∧ (∀ e : EndpointEntity, e.to_liveliness_ke =
        adminSpace ++ "/" ++ natRepr e.node.domain_id ++ "/" ++
          e.node.z_id ++ "/" ++ e.kind.code ++ "/" ++ mangle e.node.name ++
          "/" ++ mangle e.topic ++ "/" ++
          Option.elim e.type_name "EMPTY" mangle)
    ∧ (∀ s : String, mangle s =
        String.mk (s.data.map (fun c => if c = '/' then '%' else c)))
    ∧ NodeEntity.to_liveliness_ke ⟨5, "xyz789", "test/node"⟩ =
        "@zrm_lv/5/xyz789/NN/test%node" := by
  have hd : "/".data = ['/'] := rfl
  refine ⟨?_, ?_, ?_, ?_⟩
  · intro n
    apply String.ext
    simp [NodeEntity.to_liveliness_ke, joinSlash, joinChars,
      String.data_append, EntityKind.code, hd]
  · intro e
    apply String.ext
    cases hty : e.type_name with
    | none =>
      simp [EndpointEntity.to_liveliness_ke, joinSlash, joinChars,
        String.data_append, typeSegment, hty, hd]
    | some t =>
      simp [EndpointEntity.to_liveliness_ke, joinSlash, joinChars,
        String.data_append, typeSegment, hty, hd]
  · intro s
    rfl
  · decide

/-- C6: parsing rejects (raises on) every key whose first segment is not
`@zrm_lv`; a key with too few segments to be any valid key is an error;
an endpoint-kind key with too few segments, and a key whose kind-code
segment is not one of NN, MP, MS, SS, SC, produce `none` instead of
raising. -/
theorem C6_parse_rejection :
    (∀ ke : String, (splitSlash ke).head? ≠ some adminSpace →
      ∃ msg, Entity.from_liveliness_ke ke = Except.error msg)
    ∧ (∀ ke : String, (splitSlash ke).length < 5 →
      ∃ msg, Entity.from_liveliness_ke ke = Except.error msg)
    ∧ (∀ (d : Nat) (z nm : String) (k : EntityKind), k ≠ .NODE →
        '/' ∉ z.data → '/' ∉ nm.data →
        Entity.from_liveliness_ke
            (joinSlash [adminSpace, natRepr d, z, k.code, nm]) =
          Except.ok none)
    ∧ (∀ (d : Nat) (z code nm : String) (rest : List String),
        entityKindOfCode code = none →
        '/' ∉ z.data → '/' ∉ code.data → '/' ∉ nm.data →
        (∀ s ∈ rest, '/' ∉ s.data) →
        Entity.from_liveliness_ke
            (joinSlash (adminSpace :: natRepr d :: z :: code :: nm :: rest)) =
          Except.ok none) := by
  refine ⟨?_, ?_, ?_, ?_⟩
  · intro ke h
    unfold Entity.from_liveliness_ke
    cases hs : splitSlash ke with
    | nil => exact ⟨_, rfl⟩
    | cons admin rest =>
      rw [hs] at h
      have ha : admin ≠ adminSpace := by simpa using h
      exact ⟨"Invalid admin space", by simp [ha]⟩
  · intro ke h
    unfold Entity.from_liveliness_ke
    cases hs : splitSlash ke with
    | nil => exact ⟨_, rfl⟩
    | cons admin rest =>
      rw [hs] at h
      by_cases ha : admin = adminSpace
      · subst ha
        rcases rest with _ | ⟨d, _ | ⟨z, _ | ⟨code, _ | ⟨nm, rest2⟩⟩⟩⟩
        · exact ⟨"Invalid liveliness key: " ++ ke, by simp⟩
        · exact ⟨"Invalid liveliness key: " ++ ke, by simp⟩
        · exact ⟨"Invalid liveliness key: " ++ ke, by simp⟩
        · exact ⟨"Invalid liveliness key: " ++ ke, by simp⟩
        · simp only [List.length_cons] at h
          omega
      · exact ⟨"Invalid admin space", by simp [ha]⟩
  · intro d z nm k hk hz hnm
    have hsplit : splitSlash (joinSlash [adminSpace, natRepr d, z, k.code,
        nm]) = [adminSpace, natRepr d, z, k.code, nm] := by
      apply splitSlash_joinSlash
      · simp
      · intro s hs
        simp only [List.mem_cons, List.not_mem_nil, or_false] at hs
        rcases hs with rfl | rfl | rfl | rfl | rfl
        · exact adminSpace_no_slash
        · exact natRepr_no_slash _
        · exact hz
        · exact code_no_slash _
        · exact hnm
    unfold Entity.from_liveliness_ke
    rw [hsplit]
    simp only [ne_eq, not_true_eq_false, if_false, strToNat_natRepr,
      entityKindOfCode_code]
  · intro d z code nm rest hcode hz hc hnm hrest
    have hsplit : splitSlash (joinSlash (adminSpace :: natRepr d :: z ::
        code :: nm :: rest)) =
        adminSpace :: natRepr d :: z :: code :: nm :: rest := by
      apply splitSlash_joinSlash
      · simp
      · intro s hs
        simp only [List.mem_cons] at hs
        rcases hs with rfl | rfl | rfl | rfl | rfl | hs
        · exact adminSpace_no_slash
        · exact natRepr_no_slash _
        · exact hz
        · exact hc
        · exact hnm
        · exact hrest s hs
    unfold Entity.from_liveliness_ke
    rw [hsplit]
    simp [strToNat_natRepr, hcode]

/-- C6 witness: the rejection behaviour at the concrete keys used by the
repository's tests: a wrong admin space raises, a three-segment key
raises, a five-segment publisher key and an unknown kind code parse to
`none`. -/
theorem C6_parse_rejection_witness :
    (∃ msg, Entity.from_liveliness_ke "@wrong/0/abc123/NN/test_node" =
      Except.error msg)
    ∧ (∃ msg, Entity.from_liveliness_ke "@zrm_lv/0/abc123" =
      Except.error msg)
    ∧ Entity.from_liveliness_ke "@zrm_lv/0/abc123/MP/test_node" =
      Except.ok none
    ∧ Entity.from_liveliness_ke "@zrm_lv/0/abc123/XX/test_node" =
      Except.ok none := by
  refine ⟨C6_parse_rejection.1 _ (by decide),
    C6_parse_rejection.2.1 _ (by decide), ?_, ?_⟩
  · rw [show ("@zrm_lv/0/abc123/MP/test_node" : String) =
      joinSlash [adminSpace, natRepr 0, "abc123", EntityKind.PUBLISHER.code,
        "test_node"] from by decide]
    exact C6_parse_rejection.2.2.1 0 "abc123" "test_node" .PUBLISHER
      (by decide) (by decide) (by decide)
  · rw [show ("@zrm_lv/0/abc123/XX/test_node" : String) =
      joinSlash (adminSpace :: natRepr 0 :: "abc123" :: "XX" ::
        "test_node" :: []) from by decide]
    refine C6_parse_rejection.2.2.2 0 "abc123" "XX" "test_node" []
      (by decide) (by decide) (by decide) (by decide) ?_
    intro s hs
    simp at hs

/-! ### Discovery graph

Modelled from the spec: §3 "GraphData … the set of currently-alive keys;
a secondary index by topic; a secondary index by node name", §4.6
(insert / remove, the query surface and its error conditions, the
`@zrm_lv/<domain>/*` liveliness subscription), with validation error
messages pinned by src/tests/graph_test.py.  Python dicts are modelled
as association lists (`alLookup` / `alInsert` / `alErase`).
-/

def alLookup {α : Type} (k : String) : List (String × α) → Option α
  | [] => none
  | (k', v) :: rest => if k' = k then some v else alLookup k rest

def alErase {α : Type} (k : String) : List (String × α) → List (String × α)
  | [] => []
  | (k', v) :: rest => if k' = k then rest else (k', v) :: alErase k rest

def alInsert {α : Type} (k : String) (v : α) (m : List (String × α)) :
    List (String × α) :=
  (k, v) :: alErase k m

def bucketAdd (k : String) (e : Entity) (m : List (String × List Entity)) :
    List (String × List Entity) :=
  match alLookup k m with
  | some b => alInsert k (b ++ [e]) m
  | none => (k, [e]) :: m

def removeFirst (e : Entity) : List Entity → List Entity
  | [] => []
  | x :: xs => if x = e then xs else x :: removeFirst e xs

def bucketRemove (k : String) (e : Entity)
    (m : List (String × List Entity)) : List (String × List Entity) :=
  match alLookup k m with
  | none => m
  | some b =>
    let b' := removeFirst e b
    if b'.isEmpty then alErase k m else alInsert k b' m

structure GraphData where
  _entities : List (String × Entity)
  _by_topic : List (String × List Entity)
  _by_node : List (String × List Entity)
deriving DecidableEq

def GraphData.empty : GraphData := ⟨[], [], []⟩

def GraphData.insert (gd : GraphData) (key : String) : GraphData :=
  match Entity.from_liveliness_ke key with
  | .error _ => gd
  | .ok none => gd
  | .ok (some ent) =>
    match ent with
    | .node _ => { gd with _entities := alInsert key ent gd._entities }
    | .endpoint ep =>
      { _entities := alInsert key ent gd._entities,
        _by_topic := bucketAdd ep.topic ent gd._by_topic,
        _by_node := bucketAdd ep.node.name ent gd._by_node }

def GraphData.remove (gd : GraphData) (key : String) : GraphData :=
  match alLookup key gd._entities with
  | none => gd
  | some ent =>
    match ent with
    | .node _ => { gd with _entities := alErase key gd._entities }
    | .endpoint ep =>
      { _entities := alErase key gd._entities,
        _by_topic := bucketRemove ep.topic ent gd._by_topic,
        _by_node := bucketRemove ep.node.name ent gd._by_node }

def GraphData.entityList (gd : GraphData) : List Entity :=
  gd._entities.map Prod.snd

def GraphData.count (gd : GraphData) (kind : EntityKind) (name : String) :
    Except String Nat :=
  if kind = .NODE then
    Except.error "Use count_by_node to count nodes"
  else
    Except.ok ((gd.entityList.filter fun ent =>
      match ent with
      | .endpoint ep => ep.kind == kind && ep.topic == name
      | .node _ => false).length)

def GraphData.get_entities_by_topic (gd : GraphData) (kind : EntityKind)
    (topic : String) : Except String (List Entity) :=
  if kind = .PUBLISHER ∨ kind = .SUBSCRIBER then
    Except.ok (((alLookup topic gd._by_topic).getD []).filter
      fun ent => ent.kind == kind)
  else Except.error "kind must be PUBLISHER or SUBSCRIBER"

def GraphData.get_entities_by_service (gd : GraphData) (kind : EntityKind)
    (name : String) : Except String (List Entity) :=
  if kind = .SERVICE ∨ kind = .CLIENT then
    Except.ok (((alLookup name gd._by_topic).getD []).filter
      fun ent => ent.kind == kind)
  else Except.error "kind must be SERVICE or CLIENT"

def GraphData.get_entities_by_node (gd : GraphData) (kind : EntityKind)
    (name : String) : Except String (List Entity) :=
  if kind = .NODE then Except.error "kind must not be NODE"
  else
    Except.ok (((alLookup name gd._by_node).getD []).filter
      fun ent => ent.kind == kind)

def GraphData.get_names_and_types_by_node (gd : GraphData) (name : String)
    (kind : EntityKind) : Except String (List (String × Option String)) :=
  if kind = .NODE then Except.error "kind must not be NODE"
  else
    Except.ok (((alLookup name gd._by_node).getD []).filterMap
      fun ent =>
        match ent with
        | .endpoint ep =>
          if ep.kind == kind then some (ep.topic, ep.type_name) else none
        | .node _ => none)

def topicTypeOf : Entity → Option (String × String)
  | .endpoint ep =>
    if ep.kind = .PUBLISHER ∨ ep.kind = .SUBSCRIBER then
      ep.type_name.map fun t => (ep.topic, t)
    else none
  | .node _ => none

def GraphData.get_topic_names_and_types (gd : GraphData) :
    List (String × String) :=
  (gd.entityList.filterMap topicTypeOf).dedup

def Entity.domainId : Entity → Nat
  | .node n => n.domain_id
  | .endpoint e => e.node.domain_id

def keyInDomain (d : Nat) (key : String) : Bool :=
  match splitSlash key with
  | admin :: dom :: _ => admin == adminSpace && dom == natRepr d
  | _ => false

inductive LivelinessEvent where
  | alive (key : String)
  | dropped (key : String)

structure Graph where
  domain_id : Nat
  data : GraphData

def Graph.create (d : Nat) : Graph := ⟨d, GraphData.empty⟩

def Graph.handleEvent (g : Graph) (ev : LivelinessEvent) : Graph :=
  match ev with
  | .alive key =>
    if keyInDomain g.domain_id key then
      { g with data := g.data.insert key }
    else g
  | .dropped key =>
    if keyInDomain g.domain_id key then
      { g with data := g.data.remove key }
    else g

def Graph.processEvents (d : Nat) (evs : List LivelinessEvent) : Graph :=
  evs.foldl Graph.handleEvent (Graph.create d)

/-! ### Graph index lemmas -/

def valuesOf : List (String × Entity) → List Entity
  | [] => []
  | (_, v) :: rest => v :: valuesOf rest

def bucketEntities : List (String × List Entity) → List Entity
  | [] => []
  | (_, b) :: rest => b ++ bucketEntities rest

def GraphData.occurrences (gd : GraphData) : List Entity :=
  valuesOf gd._entities ++ bucketEntities gd._by_topic ++
    bucketEntities gd._by_node

theorem mem_valuesOf_alErase {k : String} {m : List (String × Entity)}
    {ent : Entity} (h : ent ∈ valuesOf (alErase k m)) : ent ∈ valuesOf m := by
  induction m with
  | nil => simpa [alErase, valuesOf] using h
  | cons p rest ih =>
    obtain ⟨k', v⟩ := p
    by_cases hk : k' = k
    · rw [alErase, if_pos hk] at h
      exact List.mem_cons_of_mem v h
    · rw [alErase, if_neg hk] at h
      rw [valuesOf] at h ⊢
      rcases List.mem_cons.mp h with h | h
      · exact List.mem_cons.mpr (Or.inl h)
      · exact List.mem_cons.mpr (Or.inr (ih h))

theorem mem_valuesOf_alInsert {k : String} {v : Entity}
    {m : List (String × Entity)} {ent : Entity}
    (h : ent ∈ valuesOf (alInsert k v m)) : ent = v ∨ ent ∈ valuesOf m := by
  rw [alInsert, valuesOf] at h
  rcases List.mem_cons.mp h with h | h
  · exact Or.inl h
  · exact Or.inr (mem_valuesOf_alErase h)

theorem mem_bucket_of_alLookup {k : String}
    {m : List (String × List Entity)} {b : List Entity}
    (h : alLookup k m = some b) {x : Entity} (hx : x ∈ b) :
    x ∈ bucketEntities m := by
  induction m with
  | nil => simp [alLookup] at h
  | cons p rest ih =>
    obtain ⟨k', b'⟩ := p
    rw [bucketEntities, List.mem_append]
    by_cases hk : k' = k
    · rw [alLookup, if_pos hk, Option.some_inj] at h
      subst h
      exact Or.inl hx
    · rw [alLookup, if_neg hk] at h
      exact Or.inr (ih h)

theorem mem_bucketEntities_alErase {k : String}
    {m : List (String × List Entity)} {x : Entity}
    (h : x ∈ bucketEntities (alErase k m)) : x ∈ bucketEntities m := by
  induction m with
  | nil => simpa [alErase, bucketEntities] using h
  | cons p rest ih =>
    obtain ⟨k', b⟩ := p
    rw [bucketEntities, List.mem_append]
    by_cases hk : k' = k
    · rw [alErase, if_pos hk] at h
      exact Or.inr h
    · rw [alErase, if_neg hk, bucketEntities, List.mem_append] at h
      rcases h with h | h
      · exact Or.inl h
      · exact Or.inr (ih h)

theorem mem_bucketEntities_alInsert {k : String} {b : List Entity}
    {m : List (String × List Entity)} {x : Entity}
    (h : x ∈ bucketEntities (alInsert k b m)) :
    x ∈ b ∨ x ∈ bucketEntities m := by
  rw [alInsert, bucketEntities, List.mem_append] at h
  rcases h with h | h
  · exact Or.inl h
  · exact Or.inr (mem_bucketEntities_alErase h)

theorem mem_removeFirst {e x : Entity} {l : List Entity}
    (h : x ∈ removeFirst e l) : x ∈ l := by
  induction l with
  | nil => simpa [removeFirst] using h
  | cons y ys ih =>
    by_cases hy : y = e
    · rw [removeFirst, if_pos hy] at h
      exact List.mem_cons_of_mem y h
    · rw [removeFirst, if_neg hy] at h
      rcases List.mem_cons.mp h with h | h
      · exact List.mem_cons.mpr (Or.inl h)
      · exact List.mem_cons.mpr (Or.inr (ih h))

theorem mem_bucketEntities_bucketAdd {k : String} {e : Entity}
    {m : List (String × List Entity)} {x : Entity}
    (h : x ∈ bucketEntities (bucketAdd k e m)) :
    x = e ∨ x ∈ bucketEntities m := by
  unfold bucketAdd at h
  cases hl : alLookup k m with
  | some b =>
    rw [hl] at h
    rcases mem_bucketEntities_alInsert h with h | h
    · rcases List.mem_append.mp h with h | h
      · exact Or.inr (mem_bucket_of_alLookup hl h)
      · exact Or.inl (List.mem_singleton.mp h)
    · exact Or.inr h
  | none =>
    rw [hl] at h
    rw [bucketEntities, List.mem_append] at h
    rcases h with h | h
    · exact Or.inl (List.mem_singleton.mp h)
    · exact Or.inr h

theorem mem_bucketEntities_bucketRemove {k : String} {e : Entity}
    {m : List (String × List Entity)} {x : Entity}
    (h : x ∈ bucketEntities (bucketRemove k e m)) : x ∈ bucketEntities m := by
  unfold bucketRemove at h
  cases hl : alLookup k m with
  | none => rwa [hl] at h
  | some b =>
    rw [hl] at h
    simp only at h
    by_cases hb : (removeFirst e b).isEmpty
    · rw [if_pos hb] at h
      exact mem_bucketEntities_alErase h
    · rw [if_neg hb] at h
      rcases mem_bucketEntities_alInsert h with h | h
      · exact mem_bucket_of_alLookup hl (mem_removeFirst h)
      · exact h

theorem mem_getD_bucket {k : String} {m : List (String × List Entity)}
    {x : Entity} (h : x ∈ (alLookup k m).getD []) : x ∈ bucketEntities m := by
  cases hl : alLookup k m with
  | none =>
    rw [hl] at h
    simp at h
  | some b =>
    rw [hl] at h
    exact mem_bucket_of_alLookup hl h

theorem mem_occurrences_insert {gd : GraphData} {key : String} {x : Entity}
    (h : x ∈ (gd.insert key).occurrences) :
    (∃ ent, Entity.from_liveliness_ke key = Except.ok (some ent) ∧ x = ent)
      ∨ x ∈ gd.occurrences := by
  unfold GraphData.insert at h
  cases hp : Entity.from_liveliness_ke key with
  | error msg =>
    rw [hp] at h
    exact Or.inr h
  | ok o =>
    cases o with
    | none =>
      rw [hp] at h
      exact Or.inr h
    | some ent =>
      rw [hp] at h
      rcases ent with n | ep
      · simp only [GraphData.occurrences, List.mem_append] at h ⊢
        rcases h with (h | h) | h
        · rcases mem_valuesOf_alInsert h with h | h
          · exact Or.inl ⟨Entity.node n, rfl, h⟩
          · exact Or.inr (Or.inl (Or.inl h))
        · exact Or.inr (Or.inl (Or.inr h))
        · exact Or.inr (Or.inr h)
      · simp only [GraphData.occurrences, List.mem_append] at h ⊢
        rcases h with (h | h) | h
        · rcases mem_valuesOf_alInsert h with h | h
          · exact Or.inl ⟨Entity.endpoint ep, rfl, h⟩
          · exact Or.inr (Or.inl (Or.inl h))
        · rcases mem_bucketEntities_bucketAdd h with h | h
          · exact Or.inl ⟨Entity.endpoint ep, rfl, h⟩
          · exact Or.inr (Or.inl (Or.inr h))
        · rcases mem_bucketEntities_bucketAdd h with h | h
          · exact Or.inl ⟨Entity.endpoint ep, rfl, h⟩
          · exact Or.inr (Or.inr h)

theorem mem_occurrences_remove {gd : GraphData} {key : String} {x : Entity}
    (h : x ∈ (gd.remove key).occurrences) : x ∈ gd.occurrences := by
  unfold GraphData.remove at h
  cases hl : alLookup key gd._entities with
  | none => rwa [hl] at h
  | some ent =>
    rw [hl] at h
    rcases ent with n | ep
    · simp only [GraphData.occurrences, List.mem_append] at h ⊢
      rcases h with (h | h) | h
      · exact Or.inl (Or.inl (mem_valuesOf_alErase h))
      · exact Or.inl (Or.inr h)
      · exact Or.inr h
    · simp only [GraphData.occurrences, List.mem_append] at h ⊢
      rcases h with (h | h) | h
      · exact Or.inl (Or.inl (mem_valuesOf_alErase h))
      · exact Or.inl (Or.inr (mem_bucketEntities_bucketRemove h))
      · exact Or.inr (mem_bucketEntities_bucketRemove h)

theorem keyInDomain_parse {d : Nat} {key : String} {ent : Entity}
    (hk : keyInDomain d key = true)
    (hp : Entity.from_liveliness_ke key = Except.ok (some ent)) :
    ent.domainId = d := by
  unfold keyInDomain at hk
  cases hs : splitSlash key with
  | nil =>
    rw [hs] at hk
    simp at hk
  | cons admin rest1 =>
    rw [hs] at hk
    cases rest1 with
    | nil => simp at hk
    | cons dom rest2 =>
      simp only [Bool.and_eq_true, beq_iff_eq] at hk
      obtain ⟨ha, hd⟩ := hk
      subst ha
      subst hd
      unfold Entity.from_liveliness_ke at hp
      rw [hs] at hp
      simp only [ne_eq, not_true_eq_false, if_false] at hp
      cases rest2 with
      | nil => simp at hp
      | cons z rest3 =>
        cases rest3 with
        | nil => simp at hp
        | cons code rest4 =>
          cases rest4 with
          | nil => simp at hp
          | cons nm rest5 =>
            simp only [strToNat_natRepr] at hp
            cases hc : entityKindOfCode code with
            | none =>
              rw [hc] at hp
              simp at hp
            | some k =>
              rw [hc] at hp
              cases k
              case NODE =>
                simp only [Except.ok.injEq, Option.some_inj] at hp
                subst hp
                rfl
              all_goals
                cases rest5 with
                | nil => simp at hp
                | cons topic rest6 =>
                  cases rest6 with
                  | nil => simp at hp
                  | cons ty rest7 =>
                    simp only [Except.ok.injEq, Option.some_inj] at hp
                    subst hp
                    rfl

def AllDomain (d : Nat) (gd : GraphData) : Prop :=
  ∀ ent ∈ gd.occurrences, ent.domainId = d

theorem handleEvent_domain_id (g : Graph) (ev : LivelinessEvent) :
    (g.handleEvent ev).domain_id = g.domain_id := by
  cases ev with
  | alive key =>
    unfold Graph.handleEvent
    by_cases hk : keyInDomain g.domain_id key
    · simp [hk]
    · simp [hk]
  | dropped key =>
    unfold Graph.handleEvent
    by_cases hk : keyInDomain g.domain_id key
    · simp [hk]
    · simp [hk]

theorem allDomain_handleEvent {d : Nat} {g : Graph} (hg : g.domain_id = d)
    (h : AllDomain d g.data) (ev : LivelinessEvent) :
    AllDomain d (g.handleEvent ev).data := by
  cases ev with
  | alive key =>
    unfold Graph.handleEvent
    by_cases hk : keyInDomain g.domain_id key
    · simp only [if_pos hk]
      intro ent hent
      rcases mem_occurrences_insert hent with ⟨e2, hp, rfl⟩ | hent2
      · exact keyInDomain_parse (hg ▸ hk) hp
      · exact h ent hent2
    · simp only [if_neg hk]
      exact h
  | dropped key =>
    unfold Graph.handleEvent
    by_cases hk : keyInDomain g.domain_id key
    · simp only [if_pos hk]
      intro ent hent
      exact h ent (mem_occurrences_remove hent)
    · simp only [if_neg hk]
      exact h

theorem allDomain_foldl {d : Nat} (evs : List LivelinessEvent) (g : Graph)
    (hg : g.domain_id = d) (h : AllDomain d g.data) :
    AllDomain d (evs.foldl Graph.handleEvent g).data := by
  induction evs generalizing g with
  | nil => exact h
  | cons ev rest ih =>
    rw [List.foldl_cons]
    exact ih (g.handleEvent ev)
      ((handleEvent_domain_id g ev).trans hg)
      (allDomain_handleEvent hg h ev)

theorem allDomain_processEvents (d : Nat) (evs : List LivelinessEvent) :
    AllDomain d (Graph.processEvents d evs).data := by
  apply allDomain_foldl evs (Graph.create d) rfl
  intro ent h
  simp [Graph.create, GraphData.empty, GraphData.occurrences, valuesOf,
    bucketEntities] at h

theorem valuesOf_eq_entityList (gd : GraphData) :
    gd.entityList = valuesOf gd._entities := by
  unfold GraphData.entityList
  induction gd._entities with
  | nil => rfl
  | cons p rest ih =>
    obtain ⟨k, v⟩ := p
    rw [List.map_cons, valuesOf, ih]

theorem mem_occurrences_of_mem_entityList {gd : GraphData} {ent : Entity}
    (h : ent ∈ gd.entityList) : ent ∈ gd.occurrences := by
  rw [valuesOf_eq_entityList] at h
  unfold GraphData.occurrences
  exact List.mem_append.mpr (Or.inl (List.mem_append.mpr (Or.inl h)))

/-- C4: on a Graph created on domain `d` and fed any stream of
liveliness events, the entity store and every entity-returning query
contain only entities of domain `d`; concretely, one publisher alive on
domain 1 contributes 0 to `count(PUBLISHER, topic)` on a Graph of
domain 2 (and 1 on a Graph of domain 1). -/
theorem C4_domain_isolation :
    (∀ (d : Nat) (evs : List LivelinessEvent) (ent : Entity),
      ent ∈ (Graph.processEvents d evs).data.entityList →
      ent.domainId = d)
    ∧ (∀ (d : Nat) (evs : List LivelinessEvent) (kind : EntityKind)
        (topic : String) (ents : List Entity),
        (Graph.processEvents d evs).data.get_entities_by_topic kind topic =
          Except.ok ents →
        ∀ ent ∈ ents, ent.domainId = d)
    ∧ (∀ (d : Nat) (evs : List LivelinessEvent) (kind : EntityKind)
        (name : String) (ents : List Entity),
        (Graph.processEvents d evs).data.get_entities_by_service kind name =
          Except.ok ents →
        ∀ ent ∈ ents, ent.domainId = d)
    ∧ (∀ (d : Nat) (evs : List LivelinessEvent) (kind : EntityKind)
        (name : String) (ents : List Entity),
        (Graph.processEvents d evs).data.get_entities_by_node kind name =
          Except.ok ents →
        ∀ ent ∈ ents, ent.domainId = d)
    ∧ (Graph.processEvents 2
        [.alive "@zrm_lv/1/zid1/MP/node1/test%topic/zrm.Pose"]).data.count
          .PUBLISHER "test/topic" = Except.ok 0
    ∧ (Graph.processEvents 1
        [.alive "@zrm_lv/1/zid1/MP/node1/test%topic/zrm.Pose"]).data.count
          .PUBLISHER "test/topic" = Except.ok 1 := by
  refine ⟨?_, ?_, ?_, ?_, by decide, by decide⟩
  · intro d evs ent hent
    exact allDomain_processEvents d evs ent
      (mem_occurrences_of_mem_entityList hent)
  · intro d evs kind topic ents hq ent hent
    unfold GraphData.get_entities_by_topic at hq
    by_cases hcond : kind = .PUBLISHER ∨ kind = .SUBSCRIBER
    · rw [if_pos hcond, Except.ok.injEq] at hq
      subst hq
      have hb := (List.mem_filter.mp hent).1
      refine allDomain_processEvents d evs ent ?_
      unfold GraphData.occurrences
      exact List.mem_append.mpr (Or.inl (List.mem_append.mpr
        (Or.inr (mem_getD_bucket hb))))
    · rw [if_neg hcond] at hq
      exact absurd hq (by simp)
  · intro d evs kind name ents hq ent hent
    unfold GraphData.get_entities_by_service at hq
    by_cases hcond : kind = .SERVICE ∨ kind = .CLIENT
    · rw [if_pos hcond, Except.ok.injEq] at hq
      subst hq
      have hb := (List.mem_filter.mp hent).1
      refine allDomain_processEvents d evs ent ?_
      unfold GraphData.occurrences
      exact List.mem_append.mpr (Or.inl (List.mem_append.mpr
        (Or.inr (mem_getD_bucket hb))))
    · rw [if_neg hcond] at hq
      exact absurd hq (by simp)
  · intro d evs kind name ents hq ent hent
    unfold GraphData.get_entities_by_node at hq
    by_cases hcond : kind = EntityKind.NODE
    · rw [if_pos hcond] at hq
      exact absurd hq (by simp)
    · rw [if_neg hcond, Except.ok.injEq] at hq
      subst hq
      have hb := (List.mem_filter.mp hent).1
      refine allDomain_processEvents d evs ent ?_
      unfold GraphData.occurrences
      exact List.mem_append.mpr (Or.inr (mem_getD_bucket hb))

/-- C4 witness: the publisher endpoint discovered from a domain-1
liveliness key on a domain-1 Graph has domain id 1, via the by-topic
query conjunct of the domain-isolation theorem. -/
theorem C4_domain_isolation_witness :
    Entity.domainId (Entity.endpoint ⟨⟨1, "zid1", "node1"⟩, .PUBLISHER,
      "test/topic", some "zrm.Pose"⟩) = 1 :=
  C4_domain_isolation.2.1 1
    [.alive "@zrm_lv/1/zid1/MP/node1/test%topic/zrm.Pose"]
    .PUBLISHER "test/topic"
    [Entity.endpoint ⟨⟨1, "zid1", "node1"⟩, .PUBLISHER, "test/topic",
      some "zrm.Pose"⟩]
    (by decide) _ (by decide)

/-- C7: every Graph query taking a kind validates it first, for all
graph states and name arguments: `count` rejects NODE (directing the
caller to `count_by_node`), `get_entities_by_topic` rejects everything
but PUBLISHER and SUBSCRIBER, `get_entities_by_service` rejects
everything but SERVICE and CLIENT, and `get_entities_by_node` and
`get_names_and_types_by_node` reject NODE. -/
theorem C7_query_kind_validation :
    (∀ (gd : GraphData) (name : String),
      gd.count .NODE name = Except.error "Use count_by_node to count nodes")
    ∧ (∀ (gd : GraphData) (kind : EntityKind) (topic : String),
        kind ≠ .PUBLISHER → kind ≠ .SUBSCRIBER →
        gd.get_entities_by_topic kind topic =
          Except.error "kind must be PUBLISHER or SUBSCRIBER")
    ∧ (∀ (gd : GraphData) (kind : EntityKind) (name : String),
        kind ≠ .SERVICE → kind ≠ .CLIENT →
        gd.get_entities_by_service kind name =
          Except.error "kind must be SERVICE or CLIENT")
    ∧ (∀ (gd : GraphData) (name : String),
        gd.get_entities_by_node .NODE name =
          Except.error "kind must not be NODE")
    ∧ (∀ (gd : GraphData) (name : String),
        gd.get_names_and_types_by_node name .NODE =
          Except.error "kind must not be NODE") := by
  refine ⟨?_, ?_, ?_, ?_, ?_⟩
  · intro gd name
    simp [GraphData.count]
  · intro gd kind topic h1 h2
    unfold GraphData.get_entities_by_topic
    rw [if_neg (fun h => h.elim h1 h2)]
  · intro gd kind name h1 h2
    unfold GraphData.get_entities_by_service
    rw [if_neg (fun h => h.elim h1 h2)]
  · intro gd name
    simp [GraphData.get_entities_by_node]
  · intro gd name
    simp [GraphData.get_names_and_types_by_node]

/-- C7 witness: the validations at the concrete arguments used by the
repository's tests, on the empty graph state. -/
theorem C7_query_kind_validation_witness :
    GraphData.empty.count .NODE "test" =
      Except.error "Use count_by_node to count nodes"
    ∧ GraphData.empty.get_entities_by_topic .SERVICE "test/topic" =
      Except.error "kind must be PUBLISHER or SUBSCRIBER"
    ∧ GraphData.empty.get_entities_by_service .PUBLISHER "test_service" =
      Except.error "kind must be SERVICE or CLIENT"
    ∧ GraphData.empty.get_entities_by_node .NODE "test_node" =
      Except.error "kind must not be NODE"
    ∧ GraphData.empty.get_names_and_types_by_node "test_node" .NODE =
      Except.error "kind must not be NODE" :=
  ⟨C7_query_kind_validation.1 GraphData.empty "test",
    C7_query_kind_validation.2.1 GraphData.empty .SERVICE "test/topic"
      (by decide) (by decide),
    C7_query_kind_validation.2.2.1 GraphData.empty .PUBLISHER "test_service"
      (by decide) (by decide),
    C7_query_kind_validation.2.2.2.1 GraphData.empty "test_node",
    C7_query_kind_validation.2.2.2.2 GraphData.empty "test_node"⟩

/-- C8: inserting any key into an empty GraphData and removing it again
leaves every index (entity store, by-topic, by-node) empty, so no index
references the entity decoded from the key; and removing a key that is
not present is a no-op on the whole state and does not raise. -/
theorem C8_insert_remove :
    (∀ key : String,
      (GraphData.empty.insert key).remove key = GraphData.empty)
    ∧ (∀ (gd : GraphData) (key : String),
        alLookup key gd._entities = none → gd.remove key = gd) := by
  constructor
  · intro key
    unfold GraphData.insert
    cases hp : Entity.from_liveliness_ke key with
    | error msg =>
      simp [GraphData.remove, alLookup, GraphData.empty]
    | ok o =>
      cases o with
      | none => simp [GraphData.remove, alLookup, GraphData.empty]
      | some ent =>
        rcases ent with n | ep
        · simp [GraphData.remove, GraphData.empty, alInsert, alErase,
            alLookup]
        · simp [GraphData.remove, GraphData.empty, alInsert, alErase,
            alLookup, bucketAdd, bucketRemove, removeFirst]
  · intro gd key h
    unfold GraphData.remove
    rw [h]

/-- C8 witness: insert-then-remove of the publisher key from the
repository's GraphData test returns the empty state, and removing the
absent key `"nonexistent"` is a no-op. -/
theorem C8_insert_remove_witness :
    (GraphData.empty.insert "@zrm_lv/0/abc/MP/node1/topic1/type1").remove
        "@zrm_lv/0/abc/MP/node1/topic1/type1" = GraphData.empty
    ∧ GraphData.empty.remove "nonexistent" = GraphData.empty :=
  ⟨C8_insert_remove.1 _,
    C8_insert_remove.2 GraphData.empty "nonexistent" (by decide)⟩

/-- C10: `get_topic_names_and_types` contains the pair `(topic, ty)`
exactly when some live publisher or subscriber endpoint has that topic
and schema name — so a topic live under several schema names contributes
all of them — and a single live publisher yields exactly its
`(topic, schema)` pair. -/
theorem C10_topic_names_and_types :
    (∀ (gd : GraphData) (topic ty : String),
      (topic, ty) ∈ gd.get_topic_names_and_types ↔
        ∃ ep : EndpointEntity, Entity.endpoint ep ∈ gd.entityList ∧
          (ep.kind = .PUBLISHER ∨ ep.kind = .SUBSCRIBER) ∧
          ep.topic = topic ∧ ep.type_name = some ty)
    ∧ (GraphData.empty.insert
        "@zrm_lv/0/abc123/MP/test_node/robot%pose/zrm.Pose").get_topic_names_and_types
        = [("robot/pose", "zrm.Pose")]
    ∧ ((GraphData.empty.insert "@zrm_lv/0/a/MP/n1/t/A").insert
        "@zrm_lv/0/b/MS/n2/t/B").get_topic_names_and_types
        = [("t", "B"), ("t", "A")] := by
  refine ⟨?_, by decide, by decide⟩
  intro gd topic ty
  unfold GraphData.get_topic_names_and_types
  rw [List.mem_dedup, List.mem_filterMap]
  constructor
  · rintro ⟨ent, hent, hf⟩
    rcases ent with n | ⟨nd, k, tp, tyn⟩
    · exact absurd hf (by simp [topicTypeOf])
    · cases k
      case NODE => exact absurd hf (by simp [topicTypeOf])
      case SERVICE => exact absurd hf (by simp [topicTypeOf])
      case CLIENT => exact absurd hf (by simp [topicTypeOf])
      all_goals
        simp [topicTypeOf, Option.map_eq_some'] at hf
        exact ⟨_, hent, by simp, hf.2, hf.1⟩
  · rintro ⟨ep, hent, hkind, htopic, hty⟩
    refine ⟨Entity.endpoint ep, hent, ?_⟩
    simp [topicTypeOf, if_pos hkind, hty, htopic]

/-! ### Service RPC layer

Modelled from the spec: §4.7 (Request/Response validation at
construction, server-side exception mapping, client-side Service Error)
and §7 (error taxonomy), with messages pinned by
src/tests/publisher_test.py and src/tests/service_test.py.  A Python
message value is abstracted to its schema name plus an opaque payload;
a raised Python exception is a `HandlerOutcome.raised` with the
exception text.
-/

inductive ZrmError where
  | typeError (msg : String)
  | timeoutError (msg : String)
  | serviceError (msg : String)
  | serviceCancelled
  | actionError (msg : String)
deriving DecidableEq

structure PyMsg where
  schema : String
  payload : Nat
deriving DecidableEq

inductive WireOp where
  | put (key : String) (msg : PyMsg)
  | query (key : String) (msg : PyMsg)
deriving DecidableEq

structure Publisher where
  _topic : String
  _msg_type : String
deriving DecidableEq

def Publisher.publish (p : Publisher) (msg : PyMsg) :
    List WireOp × Option ZrmError :=
  if msg.schema ≠ p._msg_type then
    ([], some (.typeError ("Expected message of type " ++ p._msg_type ++
      ", got " ++ msg.schema)))
  else
    ([WireOp.put p._topic msg], none)

structure ServiceSchema where
  name : String
  request : Option String
  response : Option String
deriving DecidableEq

structure ServiceServer where
  _service : String
  _request_type : String
  _response_type : String
deriving DecidableEq

structure ServiceClient where
  _service : String
  _request_type : String
  _response_type : String
deriving DecidableEq

def ServiceServer.create (service : String) (schema : ServiceSchema) :
    Except ZrmError ServiceServer :=
  match schema.request with
  | none => Except.error (.typeError (schema.name ++
      " must have a nested 'Request' message"))
  | some req =>
    match schema.response with
    | none => Except.error (.typeError (schema.name ++
        " must have a nested 'Response' message"))
    | some resp => Except.ok ⟨service, req, resp⟩

def ServiceClient.create (service : String) (schema : ServiceSchema) :
    Except ZrmError ServiceClient :=
  match schema.request with
  | none => Except.error (.typeError (schema.name ++
      " must have a nested 'Request' message"))
  | some req =>
    match schema.response with
    | none => Except.error (.typeError (schema.name ++
        " must have a nested 'Response' message"))
    | some resp => Except.ok ⟨service, req, resp⟩

def ServiceClient.sendCall (c : ServiceClient) (req : PyMsg) :
    List WireOp × Option ZrmError :=
  if req.schema ≠ c._request_type then
    ([], some (.typeError ("Expected request of type Request, got " ++
      req.schema)))
  else
    ([WireOp.query c._service req], none)

inductive HandlerOutcome where
  | value (resp : PyMsg)
  | raised (msg : String)
deriving DecidableEq

inductive ServiceReply where
  | success (payload : PyMsg)
  | error (msg : String)
deriving DecidableEq

def ServiceServer.handleQuery (s : ServiceServer)
    (handler : PyMsg → HandlerOutcome) (req : PyMsg) : ServiceReply :=
  match handler req with
  | .raised msg => .error ("Service error: " ++ msg)
  | .value resp =>
    if resp.schema ≠ s._response_type then
      .error ("Service error: handler returned " ++ resp.schema ++
        ", expected " ++ s._response_type)
    else .success resp

def ServiceClient.processReply (reply : ServiceReply) :
    Except ZrmError PyMsg :=
  match reply with
  | .success payload => Except.ok payload
  | .error msg => Except.error (.serviceError msg)

/-- C2: if the handler raises, the server replies with a Service Error
carrying the exception text and the client's call raises a ServiceError;
if the handler returns a value of the wrong schema, the server replies
with a Service Error and the client raises a ServiceError.  The server's
query handling is a total function into `ServiceReply`, so handler
failures are always converted into one reply and never propagate out of
(or terminate) the server. -/
theorem C2_handler_failures :
    (∀ (s : ServiceServer) (handler : PyMsg → HandlerOutcome)
        (req : PyMsg) (msg : String),
      handler req = .raised msg →
      s.handleQuery handler req =
          ServiceReply.error ("Service error: " ++ msg)
        ∧ ServiceClient.processReply (s.handleQuery handler req) =
          Except.error (.serviceError ("Service error: " ++ msg)))
    ∧ (∀ (s : ServiceServer) (handler : PyMsg → HandlerOutcome)
        (req resp : PyMsg),
        handler req = .value resp → resp.schema ≠ s._response_type →
        ∃ m, s.handleQuery handler req = ServiceReply.error m
          ∧ ServiceClient.processReply (s.handleQuery handler req) =
            Except.error (.serviceError m))
    ∧ (∀ (s : ServiceServer) (handler : PyMsg → HandlerOutcome)
        (req : PyMsg),
        (∃ p, s.handleQuery handler req = ServiceReply.success p)
          ∨ ∃ m, s.handleQuery handler req = ServiceReply.error m) := by
  refine ⟨?_, ?_, ?_⟩
  · intro s handler req msg hraise
    unfold ServiceServer.handleQuery
    rw [hraise]
    exact ⟨rfl, rfl⟩
  · intro s handler req resp hval hschema
    unfold ServiceServer.handleQuery
    rw [hval]
    simp only [if_pos hschema]
    exact ⟨_, rfl, rfl⟩
  · intro s handler req
    unfold ServiceServer.handleQuery
    cases handler req with
    | raised msg => exact Or.inr ⟨_, rfl⟩
    | value resp =>
      by_cases hs : resp.schema ≠ s._response_type
      · simp only [if_pos hs]
        exact Or.inr ⟨_, rfl⟩
      · simp only [if_neg hs]
        exact Or.inl ⟨_, rfl⟩

/-- C2 witness: the raising handler and the wrong-type handler from the
service tests both make the server reply a Service Error and the client
raise a ServiceError. -/
theorem C2_handler_failures_witness :
    (ServiceServer.handleQuery ⟨"add_two_ints", "zrm.AddTwoInts.Request",
        "zrm.AddTwoInts.Response"⟩ (fun _ => .raised "Intentional error")
        ⟨"zrm.AddTwoInts.Request", 0⟩ =
      ServiceReply.error ("Service error: " ++ "Intentional error"))
    ∧ ∃ m, ServiceServer.handleQuery ⟨"add_two_ints",
        "zrm.AddTwoInts.Request", "zrm.AddTwoInts.Response"⟩
        (fun _ => .value ⟨"zrm.Pose", 0⟩) ⟨"zrm.AddTwoInts.Request", 0⟩ =
          ServiceReply.error m
      ∧ ServiceClient.processReply (ServiceServer.handleQuery
          ⟨"add_two_ints", "zrm.AddTwoInts.Request",
            "zrm.AddTwoInts.Response"⟩
          (fun _ => .value ⟨"zrm.Pose", 0⟩) ⟨"zrm.AddTwoInts.Request", 0⟩) =
        Except.error (.serviceError m) :=
  ⟨(C2_handler_failures.1 ⟨"add_two_ints", "zrm.AddTwoInts.Request",
      "zrm.AddTwoInts.Response"⟩ (fun _ => .raised "Intentional error")
      ⟨"zrm.AddTwoInts.Request", 0⟩ "Intentional error" rfl).1,
    C2_handler_failures.2.1 ⟨"add_two_ints", "zrm.AddTwoInts.Request",
      "zrm.AddTwoInts.Response"⟩ (fun _ => .value ⟨"zrm.Pose", 0⟩)
      ⟨"zrm.AddTwoInts.Request", 0⟩ ⟨"zrm.Pose", 0⟩ rfl (by decide)⟩

/-- C9: schema mismatches raise a synchronous type error with nothing
sent on the wire: `publish` with a wrong-schema message emits no wire
operation and a TypeError; `call` with a wrong-schema request emits no
wire operation and a TypeError; constructing a ServiceServer or
ServiceClient from a schema lacking a nested Request or Response raises
a TypeError. -/
theorem C9_type_errors :
    (∀ (p : Publisher) (msg : PyMsg), msg.schema ≠ p._msg_type →
      p.publish msg = ([], some (.typeError ("Expected message of type " ++
        p._msg_type ++ ", got " ++ msg.schema))))
    ∧ (∀ (c : ServiceClient) (req : PyMsg), req.schema ≠ c._request_type →
        c.sendCall req = ([], some (.typeError
          ("Expected request of type Request, got " ++ req.schema))))
    ∧ (∀ (service : String) (schema : ServiceSchema),
        schema.request = none ∨ schema.response = none →
        (∃ m, ServiceServer.create service schema =
          Except.error (.typeError m))
        ∧ (∃ m, ServiceClient.create service schema =
          Except.error (.typeError m))) := by
  refine ⟨?_, ?_, ?_⟩
  · intro p msg h
    unfold Publisher.publish
    rw [if_pos h]
  · intro c req h
    unfold ServiceClient.sendCall
    rw [if_pos h]
  · intro service schema h
    constructor
    · unfold ServiceServer.create
      cases hr : schema.request with
      | none => exact ⟨_, rfl⟩
      | some req =>
        cases hresp : schema.response with
        | none => exact ⟨_, rfl⟩
        | some resp =>
          rcases h with h | h
          · rw [hr] at h
            exact absurd h (by simp)
          · rw [hresp] at h
            exact absurd h (by simp)
    · unfold ServiceClient.create
      cases hr : schema.request with
      | none => exact ⟨_, rfl⟩
      | some req =>
        cases hresp : schema.response with
        | none => exact ⟨_, rfl⟩
        | some resp =>
          rcases h with h | h
          · rw [hr] at h
            exact absurd h (by simp)
          · rw [hresp] at h
            exact absurd h (by simp)

/-- C9 witness: publishing a Point on a Pose publisher, calling an
AddTwoInts client with a Pose request, and constructing a service
endpoint from the Pose schema (which has no nested Request/Response),
at the concrete values of the repository's tests. -/
theorem C9_type_errors_witness :
    Publisher.publish ⟨"test/topic", "Pose"⟩ ⟨"Point", 0⟩ =
      ([], some (.typeError ("Expected message of type " ++ "Pose" ++
        ", got " ++ "Point")))
    ∧ ServiceClient.sendCall ⟨"add_two_ints", "zrm.AddTwoInts.Request",
        "zrm.AddTwoInts.Response"⟩ ⟨"zrm.Pose", 0⟩ =
      ([], some (.typeError ("Expected request of type Request, got " ++
        "zrm.Pose")))
    ∧ (∃ m, ServiceServer.create "invalid_service" ⟨"zrm.Pose", none, none⟩
        = Except.error (.typeError m))
    ∧ (∃ m, ServiceClient.create "invalid_service" ⟨"zrm.Pose", none, none⟩
        = Except.error (.typeError m)) :=
  ⟨C9_type_errors.1 ⟨"test/topic", "Pose"⟩ ⟨"Point", 0⟩ (by decide),
    C9_type_errors.2.1 ⟨"add_two_ints", "zrm.AddTwoInts.Request",
      "zrm.AddTwoInts.Response"⟩ ⟨"zrm.Pose", 0⟩ (by decide),
    (C9_type_errors.2.2 "invalid_service" ⟨"zrm.Pose", none, none⟩
      (Or.inl rfl)).1,
    (C9_type_errors.2.2 "invalid_service" ⟨"zrm.Pose", none, none⟩
      (Or.inl rfl)).2⟩

/-! ### Action goal state machine

Modelled from the spec: §4.8.  The goal state diagram's edges are
ACCEPTED→EXECUTING, ACCEPTED→CANCELING, EXECUTING→CANCELING,
CANCELING→CANCELED, EXECUTING→SUCCEEDED and EXECUTING→ABORTED.
`execute` drives ACCEPTED→EXECUTING; an inbound cancel-goal call
(`requestCancel`) sets `cancel_requested` and moves a non-terminal goal
to CANCELING; `succeed`/`abort` drive EXECUTING to the corresponding
terminal; `cancel` reaches CANCELED (through CANCELING when called
before any cancel request).  Illegal calls raise an action error and,
being `Except.error` results, return no updated handle, so the goal
state is unchanged.
-/

inductive GoalStatus where
  | ACCEPTED
  | EXECUTING
  | CANCELING
  | SUCCEEDED
  | CANCELED
  | ABORTED
deriving DecidableEq

def GoalStatus.isTerminal : GoalStatus → Bool
  | .SUCCEEDED => true
  | .CANCELED => true
  | .ABORTED => true
  | _ => false

structure ServerGoalHandle where
  status : GoalStatus
  cancel_requested : Bool
  result : Option PyMsg
deriving DecidableEq

def ServerGoalHandle.execute (h : ServerGoalHandle) :
    Except ZrmError ServerGoalHandle :=
  if h.status = .ACCEPTED then Except.ok { h with status := .EXECUTING }
  else Except.error (.actionError "Cannot execute goal in current state")

def ServerGoalHandle.succeed (h : ServerGoalHandle) (r : PyMsg) :
    Except ZrmError ServerGoalHandle :=
  if h.status = .EXECUTING then
    Except.ok { h with status := .SUCCEEDED, result := some r }
  else Except.error (.actionError "Cannot succeed goal in current state")

def ServerGoalHandle.abort (h : ServerGoalHandle) (r : PyMsg) :
    Except ZrmError ServerGoalHandle :=
  if h.status = .EXECUTING then
    Except.ok { h with status := .ABORTED, result := some r }
  else Except.error (.actionError "Cannot abort goal in current state")

def ServerGoalHandle.cancel (h : ServerGoalHandle) (r : PyMsg) :
    Except ZrmError ServerGoalHandle :=
  if h.status = .ACCEPTED ∨ h.status = .EXECUTING ∨
      h.status = .CANCELING then
    Except.ok { h with status := .CANCELED, result := some r }
  else Except.error (.actionError "Cannot cancel goal in current state")

def ServerGoalHandle.requestCancel (h : ServerGoalHandle) :
    ServerGoalHandle × Bool :=
  if h.status.isTerminal then (h, false)
  else ({ h with status := .CANCELING, cancel_requested := true }, true)

def ServerGoalHandle.publish_feedback (h : ServerGoalHandle) (fb : PyMsg) :
    Except ZrmError PyMsg :=
  if h.status = .ACCEPTED ∨ h.status = .EXECUTING then Except.ok fb
  else Except.error (.actionError "Cannot publish feedback in current state")

inductive AllowedEdge : GoalStatus → GoalStatus → Prop where
  | accepted_executing : AllowedEdge .ACCEPTED .EXECUTING
  | accepted_canceling : AllowedEdge .ACCEPTED .CANCELING
  | executing_canceling : AllowedEdge .EXECUTING .CANCELING
  | canceling_canceled : AllowedEdge .CANCELING .CANCELED
  | executing_succeeded : AllowedEdge .EXECUTING .SUCCEEDED
  | executing_aborted : AllowedEdge .EXECUTING .ABORTED

/-- C3: every status change made by a goal-handle operation follows the
permitted edges (ACCEPTED→EXECUTING; ACCEPTED or EXECUTING→CANCELING→
CANCELED; EXECUTING→SUCCEEDED or ABORTED); `succeed`, `abort` and
`cancel` from any terminal state raise an action error (returning no
updated handle, so the state is unchanged); `publish_feedback` succeeds
exactly in states ACCEPTED and EXECUTING. -/
theorem C3_goal_state_machine :
    (∀ h h' : ServerGoalHandle, h.execute = Except.ok h' →
      Relation.ReflTransGen AllowedEdge h.status h'.status)
    ∧ (∀ (h h' : ServerGoalHandle) (r : PyMsg), h.succeed r = Except.ok h' →
      Relation.ReflTransGen AllowedEdge h.status h'.status)
    ∧ (∀ (h h' : ServerGoalHandle) (r : PyMsg), h.abort r = Except.ok h' →
      Relation.ReflTransGen AllowedEdge h.status h'.status)
    ∧ (∀ (h h' : ServerGoalHandle) (r : PyMsg), h.cancel r = Except.ok h' →
      Relation.ReflTransGen AllowedEdge h.status h'.status)
    ∧ (∀ (h h' : ServerGoalHandle) (acc : Bool), h.requestCancel = (h', acc) →
      Relation.ReflTransGen AllowedEdge h.status h'.status)
    ∧ (∀ (h : ServerGoalHandle) (r : PyMsg), h.status.isTerminal = true →
      (∃ m, h.succeed r = Except.error (.actionError m))
        ∧ (∃ m, h.abort r = Except.error (.actionError m))
        ∧ (∃ m, h.cancel r = Except.error (.actionError m)))
    ∧ (∀ (h : ServerGoalHandle) (fb : PyMsg),
      (∃ x, h.publish_feedback fb = Except.ok x) ↔
        (h.status = .ACCEPTED ∨ h.status = .EXECUTING)) := by
  refine ⟨?_, ?_, ?_, ?_, ?_, ?_, ?_⟩
  · intro h h' hok
    unfold ServerGoalHandle.execute at hok
    by_cases hs : h.status = .ACCEPTED
    · rw [if_pos hs, Except.ok.injEq] at hok
      subst hok
      rw [hs]
      exact Relation.ReflTransGen.single AllowedEdge.accepted_executing
    · rw [if_neg hs] at hok
      exact absurd hok (by simp)
  · intro h h' r hok
    unfold ServerGoalHandle.succeed at hok
    by_cases hs : h.status = .EXECUTING
    · rw [if_pos hs, Except.ok.injEq] at hok
      subst hok
      rw [hs]
      exact Relation.ReflTransGen.single AllowedEdge.executing_succeeded
    · rw [if_neg hs] at hok
      exact absurd hok (by simp)
  · intro h h' r hok
    unfold ServerGoalHandle.abort at hok
    by_cases hs : h.status = .EXECUTING
    · rw [if_pos hs, Except.ok.injEq] at hok
      subst hok
      rw [hs]
      exact Relation.ReflTransGen.single AllowedEdge.executing_aborted
    · rw [if_neg hs] at hok
      exact absurd hok (by simp)
  · intro h h' r hok
    unfold ServerGoalHandle.cancel at hok
    by_cases hs : h.status = .ACCEPTED ∨ h.status = .EXECUTING ∨
        h.status = .CANCELING
    · rw [if_pos hs, Except.ok.injEq] at hok
      subst hok
      rcases hs with hs | hs | hs
      · rw [hs]
        exact Relation.ReflTransGen.head AllowedEdge.accepted_canceling
          (Relation.ReflTransGen.single AllowedEdge.canceling_canceled)
      · rw [hs]
        exact Relation.ReflTransGen.head AllowedEdge.executing_canceling
          (Relation.ReflTransGen.single AllowedEdge.canceling_canceled)
      · rw [hs]
        exact Relation.ReflTransGen.single AllowedEdge.canceling_canceled
    · rw [if_neg hs] at hok
      exact absurd hok (by simp)
  · intro h h' acc hok
    unfold ServerGoalHandle.requestCancel at hok
    by_cases hs : h.status.isTerminal = true
    · rw [if_pos hs, Prod.mk.injEq] at hok
      rw [← hok.1]
    · rw [if_neg hs, Prod.mk.injEq] at hok
      rw [← hok.1]
      rcases hstat : h.status with _ | _ | _ | _ | _ | _
      · exact Relation.ReflTransGen.single AllowedEdge.accepted_canceling
      · exact Relation.ReflTransGen.single AllowedEdge.executing_canceling
      · exact Relation.ReflTransGen.refl
      · simp [hstat, GoalStatus.isTerminal] at hs
      · simp [hstat, GoalStatus.isTerminal] at hs
      · simp [hstat, GoalStatus.isTerminal] at hs
  · intro h r hterm
    have h1 : h.status ≠ .EXECUTING := by
      intro hh
      rw [hh] at hterm
      simp [GoalStatus.isTerminal] at hterm
    have h2 : ¬(h.status = .ACCEPTED ∨ h.status = .EXECUTING ∨
        h.status = .CANCELING) := by
      rintro (hh | hh | hh) <;> rw [hh] at hterm <;>
        simp [GoalStatus.isTerminal] at hterm
    refine ⟨⟨"Cannot succeed goal in current state", ?_⟩,
      ⟨"Cannot abort goal in current state", ?_⟩,
      ⟨"Cannot cancel goal in current state", ?_⟩⟩
    · unfold ServerGoalHandle.succeed
      rw [if_neg h1]
    · unfold ServerGoalHandle.abort
      rw [if_neg h1]
    · unfold ServerGoalHandle.cancel
      rw [if_neg h2]
  · intro h fb
    unfold ServerGoalHandle.publish_feedback
    by_cases hs : h.status = .ACCEPTED ∨ h.status = .EXECUTING
    · rw [if_pos hs]
      exact ⟨fun _ => hs, fun _ => ⟨fb, rfl⟩⟩
    · rw [if_neg hs]
      exact ⟨fun ⟨x, hx⟩ => absurd hx (by simp), fun hh => absurd hh hs⟩

/-- C3 witness: the fibonacci-style goal run at concrete handles: an
ACCEPTED goal executes, an EXECUTING goal succeeds, a SUCCEEDED goal
rejects succeed/abort/cancel with an action error, and feedback is
publishable exactly in ACCEPTED. -/
theorem C3_goal_state_machine_witness :
    Relation.ReflTransGen AllowedEdge GoalStatus.ACCEPTED
      GoalStatus.EXECUTING
    ∧ Relation.ReflTransGen AllowedEdge GoalStatus.EXECUTING
      GoalStatus.SUCCEEDED
    ∧ (∃ m, ServerGoalHandle.succeed ⟨.SUCCEEDED, false, none⟩
        ⟨"zrm.Result", 0⟩ = Except.error (.actionError m))
    ∧ (∃ m, ServerGoalHandle.cancel ⟨.CANCELED, true, none⟩
        ⟨"zrm.Result", 0⟩ = Except.error (.actionError m))
    ∧ (∃ x, ServerGoalHandle.publish_feedback ⟨.ACCEPTED, false, none⟩
        ⟨"zrm.Feedback", 1⟩ = Except.ok x) :=
  ⟨C3_goal_state_machine.1 ⟨.ACCEPTED, false, none⟩
      ⟨.EXECUTING, false, none⟩ (by decide),
    C3_goal_state_machine.2.1 ⟨.EXECUTING, false, none⟩
      ⟨.SUCCEEDED, false, some ⟨"zrm.Result", 0⟩⟩ ⟨"zrm.Result", 0⟩
      (by decide),
    (C3_goal_state_machine.2.2.2.2.2.1 ⟨.SUCCEEDED, false, none⟩
      ⟨"zrm.Result", 0⟩ (by decide)).1,
    (C3_goal_state_machine.2.2.2.2.2.1 ⟨.CANCELED, true, none⟩
      ⟨"zrm.Result", 0⟩ (by decide)).2.2,
    (C3_goal_state_machine.2.2.2.2.2.2 ⟨.ACCEPTED, false, none⟩
      ⟨"zrm.Feedback", 1⟩).mpr (Or.inl rfl)⟩

end ZRM
